import Mathlib

/-!
# Verification of the `porepy` time-stepping PDE solver (`pde_solver.py`)

Shallow embedding of `src/porepy/numerics/pde_solver.py`.

The module defines an abstract time-stepping driver (`AbstractSolver`) and four
concrete time-integration schemes (`Implicit`, `BDF2`, `Explicit`,
`CrankNicolson`).  We model:

* vectors as `Fin n → ℚ` and sparse matrices as `Matrix (Fin n) (Fin n) ℚ`
  (floating-point numbers are embedded as exact rationals);
* the mutable solver object as an explicit state record `SState`;
* the external problem descriptor as a record `Problem` of pure functions;
* the external sparse direct solver `scipy.sparse.linalg.spsolve` as an
  abstract parameter `lin : LinSolve n` (claims that depend on its
  correctness take it as a hypothesis);
* the `while` loops of `solve` by well-founded recursion on the remaining
  number of iterations, exactly mirroring the source's epsilon-tolerant
  floating-point guards (`1e-14`, and `1e-6` inside `BDF2.update`).
-/

namespace PorePy

/-- `1e-14`, the loop-boundary tolerance in `AbstractSolver.solve` and
`Explicit.solve` (lines 63 and 186 of the source). -/
def eps : ℚ := 1 / 10 ^ 14

/-- `1e-6`, the first-step tolerance in `BDF2.update` (line 151). -/
def eps6 : ℚ := 1 / 10 ^ 6

/-- Square rational matrices, standing in for scipy sparse matrices. -/
abbrev Mat (n : ℕ) := Matrix (Fin n) (Fin n) ℚ

/-- Solution / right-hand-side vectors. -/
abbrev Vec (n : ℕ) := Fin n → ℚ

/-- The kind of domain object `problem.grid()` returns: either a
mixed-dimensional `GridBucket` or a single mesh (`_discretize` dispatches on
`isinstance(self.g, GridBucket)`, line 100). -/
inductive Domain where
  | bucket : Domain
  | single : Domain
deriving DecidableEq

/-- A discretization term.  Its `matrix_rhs` method is called either as
`disc.matrix_rhs(g)` (GridBucket branch, line 103/105) or as
`disc.matrix_rhs(g, data)` (single-domain branch, line 111/113); the grid `g`
is fixed per solver, so it is absorbed into the record.  `D` is the type of
the mutable data store. -/
structure Disc (n : ℕ) (D : Type) where
  mrBucket : Mat n × Vec n
  mrSingle : D → Mat n × Vec n

/-- Python exceptions raised by the module. -/
inductive PyError where
  | notImplementedError : PyError
  | attributeError : PyError
deriving DecidableEq

/-- The problem descriptor consumed by `AbstractSolver.__init__` (lines
19-56).  `spaceDisc0 :: spaceDiscRest` models `problem.space_disc()` (a term
or tuple of terms, at least one); likewise for `time_disc`.  `update` models
the `problem.update(t)` hook mutating the data store. -/
structure Problem (n : ℕ) (D : Type) where
  dom : Domain
  data : D
  spaceDisc0 : Disc n D
  spaceDiscRest : List (Disc n D)
  timeDisc0 : Disc n D
  timeDiscRest : List (Disc n D)
  dt : ℚ
  T : ℚ
  initialCondition : Vec n
  update : ℚ → D → D

/-- The abstract external sparse direct solver
(`sps.linalg.spsolve(lhs, rhs)`, line 77). -/
abbrev LinSolve (n : ℕ) := Mat n → Vec n → Vec n

/-- The solver object's mutable attributes (the union of the attributes of
all four schemes; in Python unused attributes simply never exist on the
instance — here they carry inert default values).  `results` and `times`
model `data[problem.physics]` and `data['times']`, the result history lists
created in `AbstractSolver.__init__` (lines 36-37). -/
structure SState (n : ℕ) (D : Type) where
  data : D
  dt : ℚ
  T : ℚ
  p0 : Vec n
  p : Vec n
  lhs : Mat n
  rhs : Vec n
  storeResults : Bool
  results : List (Vec n)
  times : List ℚ
  p_1 : Vec n
  flagFirst : Bool
  lhs_flux : Mat n
  rhs_flux : Vec n
  lhs_time : Mat n
  rhs_time : Vec n
  lhs_flux_0 : Mat n
  rhs_flux_0 : Vec n
  lhs_time_0 : Mat n
  rhs_time_0 : Vec n

variable {n : ℕ} {D : Type}

/-- `lhs, rhs = discs[0].matrix_rhs(...)` followed by in-place accumulation
`lhs += lhs_n; rhs += rhs_n` over the remaining terms (lines 103-107 and
111-115). -/
def sumPairs (first : Mat n × Vec n) (rest : List (Mat n × Vec n)) :
    Mat n × Vec n :=
  rest.foldl (fun a x => (a.1 + x.1, a.2 + x.2)) first

/-- `AbstractSolver._discretize` (lines 99-116) as called after construction,
when `self.data` exists.  The GridBucket branch calls `matrix_rhs(g)`, the
single-domain branch `matrix_rhs(g, data)`. -/
def discretize (dom : Domain) (data : D) (d0 : Disc n D)
    (rest : List (Disc n D)) : Mat n × Vec n :=
  match dom with
  | .bucket => sumPairs d0.mrBucket (rest.map (fun d => d.mrBucket))
  | .single => sumPairs (d0.mrSingle data) (rest.map (fun d => d.mrSingle data))

/-- `AbstractSolver._discretize` as invoked on a partially constructed
object: `data?` is `none` when the `self.data` attribute has not been
assigned yet (it is set only in `AbstractSolver.__init__`, line 44).  The
single-domain branch reads `self.data` (line 111) and hence raises
`AttributeError` when the attribute is missing; the GridBucket branch never
touches it. -/
def discretizePre (dom : Domain) (data? : Option D) (d0 : Disc n D)
    (rest : List (Disc n D)) : Except PyError (Mat n × Vec n) :=
  match dom with
  | .bucket => .ok (sumPairs d0.mrBucket (rest.map (fun d => d.mrBucket)))
  | .single =>
    match data? with
    | none => .error .attributeError
    | some data =>
        .ok (sumPairs (d0.mrSingle data) (rest.map (fun d => d.mrSingle data)))

/-- `AbstractSolver.__init__` (lines 19-56): capture data, `p0 = p =`
initial condition, `dt`, `T`, empty `lhs`/`rhs` (modelled as `0` — they are
overwritten by `reassemble` before first use), empty result history, and the
default parameters `store_results = False`.  Attributes not created by the
base initializer (`p_1`, `flag_first`, the Crank-Nicolson caches) get inert
defaults. -/
def initState (prob : Problem n D) : SState n D where
  data := prob.data
  dt := prob.dt
  T := prob.T
  p0 := prob.initialCondition
  p := prob.initialCondition
  lhs := 0
  rhs := 0
  storeResults := false
  results := []
  times := []
  p_1 := 0
  flagFirst := false
  lhs_flux := 0
  rhs_flux := 0
  lhs_time := 0
  rhs_time := 0
  lhs_flux_0 := 0
  rhs_flux_0 := 0
  lhs_time_0 := 0
  rhs_time_0 := 0

/-- `AbstractSolver.step` (lines 73-78): `self.p = spsolve(self.lhs, self.rhs)`. -/
def stepS (lin : LinSolve n) (s : SState n D) : SState n D :=
  { s with p := lin s.lhs s.rhs }

/-- `AbstractSolver.update` (lines 80-89): refresh the data store via the
problem hook, roll `p0` forward to the accepted solution `p`, and, when
`store_results` is enabled, append `p` and `t - dt` to the history. -/
def baseUpdate (prob : Problem n D) (t : ℚ) (s : SState n D) : SState n D :=
  let s1 : SState n D := { s with data := prob.update t s.data, p0 := s.p }
  if s1.storeResults = true then
    { s1 with results := s1.results ++ [s1.p], times := s1.times ++ [t - s1.dt] }
  else
    s1

/-- `AbstractSolver.reassemble` (lines 91-97): unconditionally raises
`NotImplementedError`. -/
def abstractReassemble (s : SState n D) : Except PyError (SState n D) :=
  .error .notImplementedError

/-- `Implicit.reassemble` (lines 128-133). -/
def Implicit.reassemble (prob : Problem n D) (s : SState n D) : SState n D :=
  let lf := discretize prob.dom s.data prob.spaceDisc0 prob.spaceDiscRest
  let lt := discretize prob.dom s.data prob.timeDisc0 prob.timeDiscRest
  { s with lhs := lt.1 + lf.1
           rhs := lt.1.mulVec s.p0 + lf.2 + lt.2 }

/-- `BDF2.__init__` (lines 142-145): `flag_first = True`, base init, then
`p_1 = p0`. -/
def BDF2.init (prob : Problem n D) : SState n D :=
  let s := initState prob
  { s with flagFirst := true, p_1 := s.p0 }

/-- `BDF2.update` (lines 147-156): recompute the first-step flag from `t`
(`t > dt + 1e-6`), shift `p_1 := p0`, then run the base update. -/
def BDF2.update (prob : Problem n D) (t : ℚ) (s : SState n D) : SState n D :=
  let s1 : SState n D :=
    if s.dt + eps6 < t then { s with flagFirst := false }
    else { s with flagFirst := true }
  let s2 : SState n D := { s1 with p_1 := s1.p0 }
  baseUpdate prob t s2

/-- `BDF2.reassemble` (lines 158-169): Implicit formula while the first-step
flag is set, the genuine BDF2 formula afterwards. -/
def BDF2.reassemble (prob : Problem n D) (s : SState n D) : SState n D :=
  let lf := discretize prob.dom s.data prob.spaceDisc0 prob.spaceDiscRest
  let lt := discretize prob.dom s.data prob.timeDisc0 prob.timeDiscRest
  if s.flagFirst = true then
    { s with lhs := lt.1 + lf.1
             rhs := lt.1.mulVec s.p0 + lf.2 + lt.2 }
  else
    { s with lhs := lt.1 + (2 / 3 : ℚ) • lf.1
             rhs := ((4 / 3 : ℚ) • lt.1).mulVec s.p0
                      - ((1 / 3 : ℚ) • lt.1).mulVec s.p_1
                      + (2 / 3 : ℚ) • lf.2 + lt.2 }

/-- `Explicit.reassemble` (lines 196-202). -/
def Explicit.reassemble (prob : Problem n D) (s : SState n D) : SState n D :=
  let lf := discretize prob.dom s.data prob.spaceDisc0 prob.spaceDiscRest
  let lt := discretize prob.dom s.data prob.timeDisc0 prob.timeDiscRest
  { s with lhs := lt.1
           rhs := (lt.1 - lf.1).mulVec s.p0 + lf.2 + lt.2 }

/-- `CrankNicolson.__init__` (lines 211-219): sets `self.g`, pre-assembles
the flux and time pairs by calling `_discretize` *before*
`AbstractSolver.__init__` has assigned `self.data`, caches them as the `*_0`
pairs, then runs the base initializer.  On a single (non-GridBucket) domain
the pre-assembly reads the missing `data` attribute and raises
`AttributeError`. -/
def CrankNicolson.init (prob : Problem n D) : Except PyError (SState n D) := do
  let lf ← discretizePre prob.dom none prob.spaceDisc0 prob.spaceDiscRest
  let lt ← discretizePre prob.dom none prob.timeDisc0 prob.timeDiscRest
  let s := initState prob
  return { s with lhs_flux := lf.1, rhs_flux := lf.2
                  lhs_time := lt.1, rhs_time := lt.2
                  lhs_flux_0 := lf.1, rhs_flux_0 := lf.2
                  lhs_time_0 := lt.1, rhs_time_0 := lt.2 }

/-- `CrankNicolson.update` (lines 221-229): base update, then rotate the
current-step pairs into the `*_0` caches. -/
def CrankNicolson.update (prob : Problem n D) (t : ℚ) (s : SState n D) :
    SState n D :=
  let s1 := baseUpdate prob t s
  { s1 with lhs_flux_0 := s1.lhs_flux, rhs_flux_0 := s1.rhs_flux
            lhs_time_0 := s1.lhs_time, rhs_time_0 := s1.rhs_time }

/-- `CrankNicolson.reassemble` (lines 231-239). -/
def CrankNicolson.reassemble (prob : Problem n D) (s : SState n D) :
    SState n D :=
  let lf := discretize prob.dom s.data prob.spaceDisc0 prob.spaceDiscRest
  let lt := discretize prob.dom s.data prob.timeDisc0 prob.timeDiscRest
  let s1 : SState n D :=
    { s with lhs_flux := lf.1, rhs_flux := lf.2
             lhs_time := lt.1, rhs_time := lt.2 }
  let rhs1 := (1 / 2 : ℚ) • (s1.rhs_flux + s1.rhs_time)
  let rhs0 := (1 / 2 : ℚ) • (s1.rhs_flux_0 + s1.rhs_time_0)
  { s1 with lhs := s1.lhs_time + (1 / 2 : ℚ) • s1.lhs_flux
            rhs := (s1.lhs_time - (1 / 2 : ℚ) • s1.lhs_flux_0).mulVec s1.p0
                     + rhs1 + rhs0 }

/-- Closed form for the number of iterations of `while t < bound: t += dt`
starting from `t`, for positive `dt`. -/
def nIter (dt bound t : ℚ) : ℕ := (⌈(bound - t) / dt⌉).toNat

/-- The body of one loop iteration shared by every scheme's `solve`:
`self.update(t); self.reassemble(); self.step()` (lines 66-68 and 189-191),
with the scheme's own `update` and `reassemble`. -/
def schemeBody (lin : LinSolve n) (upd : ℚ → SState n D → SState n D)
    (reasm : SState n D → SState n D) (t : ℚ) (s : SState n D) : SState n D :=
  stepS lin (reasm (upd t s))

/-- The `while t < bound: ...; t += dt` loop, returning the final `t`
together with the final state.  Terminates because `dt > 0`. -/
def loopA {S : Type} (body : ℚ → S → S) (dt bound : ℚ) (hdt : 0 < dt)
    (t : ℚ) (s : S) : ℚ × S :=
  if h : t < bound then loopA body dt bound hdt (t + dt) (body t s)
  else (t, s)
termination_by (⌈(bound - t) / dt⌉).toNat
decreasing_by
  have h1 : (0 : ℚ) < (bound - t) / dt := div_pos (by linarith) hdt
  have h2 : (bound - (t + dt)) / dt = (bound - t) / dt - 1 := by
    field_simp
    ring
  have h3 : (1 : ℤ) ≤ ⌈(bound - t) / dt⌉ := Int.ceil_pos.mpr h1
  have h4 : ⌈(bound - (t + dt)) / dt⌉ = ⌈(bound - t) / dt⌉ - 1 := by
    rw [h2, Int.ceil_sub_one]
  omega

/-- Iterate the loop body a fixed number of times, threading the time
variable; `loopA` is proved equal to `runSteps` at `nIter` iterations. -/
def runSteps {S : Type} (body : ℚ → S → S) (dt : ℚ) :
    ℕ → ℚ → S → S
  | 0, _, s => s
  | k + 1, t, s => runSteps body dt k (t + dt) (body t s)

/-- `AbstractSolver.solve` (lines 58-71), shared by `Implicit`, `BDF2` and
`CrankNicolson`: loop from `t = dt` while `t < T + 1e-14`, then one final
`update(t)` past the loop exit. -/
def abstractSolve (lin : LinSolve n) (upd : ℚ → SState n D → SState n D)
    (reasm : SState n D → SState n D) (s : SState n D) (hdt : 0 < s.dt) :
    SState n D :=
  let r := loopA (schemeBody lin upd reasm) s.dt (s.T + eps) hdt s.dt s
  upd r.1 r.2

/-- `Implicit.solve` = the inherited `AbstractSolver.solve`. -/
def Implicit.solve (lin : LinSolve n) (prob : Problem n D) (s : SState n D)
    (hdt : 0 < s.dt) : SState n D :=
  abstractSolve lin (baseUpdate prob) (Implicit.reassemble prob) s hdt

/-- `BDF2.solve` = the inherited `AbstractSolver.solve` with `BDF2.update`
and `BDF2.reassemble`. -/
def BDF2.solve (lin : LinSolve n) (prob : Problem n D) (s : SState n D)
    (hdt : 0 < s.dt) : SState n D :=
  abstractSolve lin (BDF2.update prob) (BDF2.reassemble prob) s hdt

/-- `CrankNicolson.solve` = the inherited `AbstractSolver.solve` with the
Crank-Nicolson `update` and `reassemble`. -/
def CrankNicolson.solve (lin : LinSolve n) (prob : Problem n D)
    (s : SState n D) (hdt : 0 < s.dt) : SState n D :=
  abstractSolve lin (CrankNicolson.update prob) (CrankNicolson.reassemble prob)
    s hdt

/-- `Explicit.solve` (lines 181-194): loop from `t = 0` while
`t < T - dt + 1e-14`, with *no* final `update` call after the loop. -/
def Explicit.solve (lin : LinSolve n) (prob : Problem n D) (s : SState n D)
    (hdt : 0 < s.dt) : SState n D :=
  (loopA (schemeBody lin (baseUpdate prob) (Explicit.reassemble prob))
    s.dt (s.T - s.dt + eps) hdt 0 s).2

/-- Number of `update/reassemble/step` iterations performed by the loop of
the inherited `AbstractSolver.solve` (`t` from `dt` while `t < T + 1e-14`). -/
def implicitIters (dt T : ℚ) : ℕ := nIter dt (T + eps) dt

/-- Number of `update/reassemble/step` iterations performed by the loop of
`Explicit.solve` (`t` from `0` while `t < T - dt + 1e-14`). -/
def explicitIters (dt T : ℚ) : ℕ := nIter dt (T - dt + eps) 0

/-- The loop of `AbstractSolver.solve` with the base class's own
`reassemble`, which raises: an exception aborts the loop and propagates. -/
def loopAE {S : Type} (body : ℚ → S → Except PyError S) (dt bound : ℚ)
    (hdt : 0 < dt) (t : ℚ) (s : S) : Except PyError (ℚ × S) :=
  if h : t < bound then
    match body t s with
    | .error e => .error e
    | .ok s2 => loopAE body dt bound hdt (t + dt) s2
  else .ok (t, s)
termination_by (⌈(bound - t) / dt⌉).toNat
decreasing_by
  have h1 : (0 : ℚ) < (bound - t) / dt := div_pos (by linarith) hdt
  have h2 : (bound - (t + dt)) / dt = (bound - t) / dt - 1 := by
    field_simp
    ring
  have h3 : (1 : ℤ) ≤ ⌈(bound - t) / dt⌉ := Int.ceil_pos.mpr h1
  have h4 : ⌈(bound - (t + dt)) / dt⌉ = ⌈(bound - t) / dt⌉ - 1 := by
    rw [h2, Int.ceil_sub_one]
  omega

/-- `AbstractSolver.solve` run on a scheme that does not override
`reassemble`: each iteration calls `update`, then the base `reassemble`
(which raises), then `step`. -/
def abstractSolveRaw (lin : LinSolve n)
    (upd : ℚ → SState n D → SState n D) (s : SState n D) (hdt : 0 < s.dt) :
    Except PyError (SState n D) :=
  match loopAE
      (fun t s1 => (abstractReassemble (upd t s1)).map (stepS lin))
      s.dt (s.T + eps) hdt s.dt s with
  | .error e => .error e
  | .ok r => .ok (upd r.1 r.2)

/-! ### Concrete instances used to exercise the definitions -/

/-- A constant vector on a one-cell grid. -/
def vec1 (a : ℚ) : Vec 1 := fun _ => a

/-- A one-cell discretization term assembling the matrix `m` and the
constant right-hand side `r`, under either call signature. -/
def disc1 (m : Mat 1) (r : ℚ) : Disc 1 Unit :=
  ⟨(m, vec1 r), fun _ => (m, vec1 r)⟩

/-- A direct solver for the trivial systems below (their `lhs` is the
identity, so returning `rhs` solves them exactly). -/
def linId : LinSolve 1 := fun _ b => b

/-- Zero spatial operator, zero source. -/
def discZero : Disc 1 Unit := disc1 0 0

/-- Identity mass matrix, zero source. -/
def discMass : Disc 1 Unit := disc1 1 0

/-- Identity mass matrix, unit source. -/
def discMassSrc : Disc 1 Unit := disc1 1 1

/-- One-cell mixed-dimensional problem: zero spatial operator, identity mass
matrix, `dt = 1`, `T = 1`, initial condition `5`. -/
def probA : Problem 1 Unit :=
  ⟨.bucket, (), discZero, [], discMass, [], 1, 1, vec1 5, fun _ d => d⟩

/-- One-cell mixed-dimensional problem with a unit source in the time term:
`dt = 1`, `T = 2`, initial condition `0`; its solution changes every step. -/
def probB : Problem 1 Unit :=
  ⟨.bucket, (), discZero, [], discMassSrc, [], 1, 2, vec1 0, fun _ d => d⟩

/-- One-cell *single-domain* (non-GridBucket) problem. -/
def probS : Problem 1 Unit :=
  ⟨.single, (), discZero, [], discMass, [], 1, 1, vec1 0, fun _ d => d⟩

/-- `probA`'s initial solver state with `store_results` enabled
(`solver.parameters['store_results'] = True`). -/
def stateStoreA : SState 1 Unit := { initState probA with storeResults := true }

end PorePy

namespace PorePy

variable {n : ℕ} {D : Type}

/-! ### Loop infrastructure lemmas -/

/-- One more iteration runs when the guard holds. -/
theorem nIter_succ (dt bound t : ℚ) (hdt : 0 < dt) (h : t < bound) :
    nIter dt bound t = nIter dt bound (t + dt) + 1 := by
  unfold nIter
  have h1 : (0 : ℚ) < (bound - t) / dt := div_pos (by linarith) hdt
  have h2 : (bound - (t + dt)) / dt = (bound - t) / dt - 1 := by
    field_simp
    ring
  have h3 : (1 : ℤ) ≤ ⌈(bound - t) / dt⌉ := Int.ceil_pos.mpr h1
  rw [h2, Int.ceil_sub_one]
  omega

/-- No iteration runs when the guard fails. -/
theorem nIter_none (dt bound t : ℚ) (hdt : 0 < dt) (h : ¬ t < bound) :
    nIter dt bound t = 0 := by
  unfold nIter
  have h1 : (bound - t) / dt ≤ 0 :=
    div_nonpos_of_nonpos_of_nonneg (by linarith) hdt.le
  have h2 : ⌈(bound - t) / dt⌉ ≤ 0 := by
    exact Int.ceil_le.mpr (by exact_mod_cast h1)
  omega

/-- The while loop runs its body exactly `nIter` times. -/
theorem loopA_eq {S : Type} (body : ℚ → S → S) (dt bound : ℚ) (hdt : 0 < dt) :
    ∀ (k : ℕ) (t : ℚ) (s : S), nIter dt bound t = k →
      loopA body dt bound hdt t s =
        (t + (k : ℚ) * dt, runSteps body dt k t s) := by
  intro k
  induction k with
  | zero =>
    intro t s hk
    have h : ¬ t < bound := by
      intro h
      rw [nIter_succ dt bound t hdt h] at hk
      omega
    rw [loopA]
    simp [h, runSteps]
  | succ k ih =>
    intro t s hk
    have h : t < bound := by
      by_contra h
      rw [nIter_none dt bound t hdt h] at hk
      omega
    have hk' : nIter dt bound (t + dt) = k := by
      rw [nIter_succ dt bound t hdt h] at hk
      omega
    rw [loopA]
    simp only [h, dite_true]
    rw [ih (t + dt) (body t s) hk']
    refine Prod.ext ?_ rfl
    push_cast
    ring

/-- `loopA` expressed through `runSteps` and `nIter`. -/
theorem loopA_run {S : Type} (body : ℚ → S → S) (dt bound : ℚ) (hdt : 0 < dt)
    (t : ℚ) (s : S) :
    loopA body dt bound hdt t s =
      (t + (nIter dt bound t : ℚ) * dt,
        runSteps body dt (nIter dt bound t) t s) :=
  loopA_eq body dt bound hdt _ t s rfl

/-- The exception-propagating loop aborts on the first failing body. -/
theorem loopAE_error {S : Type} (body : ℚ → S → Except PyError S)
    (dt bound : ℚ) (hdt : 0 < dt) (t : ℚ) (s : S) (e : PyError)
    (h : t < bound) (hb : body t s = .error e) :
    loopAE body dt bound hdt t s = .error e := by
  rw [loopAE]
  simp [h, hb]

/-- Invariant preservation through `runSteps`. -/
theorem runSteps_inv {S : Type} (body : ℚ → S → S) (dt : ℚ) (P : S → Prop)
    (hP : ∀ t s, P s → P (body t s)) :
    ∀ (k : ℕ) (t : ℚ) (s : S), P s → P (runSteps body dt k t s) := by
  intro k
  induction k with
  | zero => intro t s hs; exact hs
  | succ k ih => intro t s hs; exact ih (t + dt) (body t s) (hP t s hs)

/-! ### Characterizations of the update functions -/

/-- `AbstractSolver.update` written as a single record update. -/
theorem baseUpdate_eq (prob : Problem n D) (t : ℚ) (s : SState n D) :
    baseUpdate prob t s =
      { s with data := prob.update t s.data
               p0 := s.p
               results := s.results ++
                 (if s.storeResults = true then [s.p] else [])
               times := s.times ++
                 (if s.storeResults = true then [t - s.dt] else []) } := by
  unfold baseUpdate
  by_cases h : s.storeResults = true <;> simp [h]

/-- `BDF2.update` written as a single record update. -/
theorem bdf2_update_eq (prob : Problem n D) (t : ℚ) (s : SState n D) :
    BDF2.update prob t s =
      { s with data := prob.update t s.data
               p0 := s.p
               p_1 := s.p0
               flagFirst := (if s.dt + eps6 < t then false else true)
               results := s.results ++
                 (if s.storeResults = true then [s.p] else [])
               times := s.times ++
                 (if s.storeResults = true then [t - s.dt] else []) } := by
  unfold BDF2.update
  by_cases h : s.dt + eps6 < t <;> simp [h, baseUpdate_eq]

/-- `CrankNicolson.update` written as a single record update. -/
theorem cn_update_eq (prob : Problem n D) (t : ℚ) (s : SState n D) :
    CrankNicolson.update prob t s =
      { s with data := prob.update t s.data
               p0 := s.p
               results := s.results ++
                 (if s.storeResults = true then [s.p] else [])
               times := s.times ++
                 (if s.storeResults = true then [t - s.dt] else [])
               lhs_flux_0 := s.lhs_flux
               rhs_flux_0 := s.rhs_flux
               lhs_time_0 := s.lhs_time
               rhs_time_0 := s.rhs_time } := by
  unfold CrankNicolson.update
  simp [baseUpdate_eq]

/-- With the first-step flag set, `BDF2.reassemble` is exactly
`Implicit.reassemble`. -/
theorem BDF2.reassemble_first (prob : Problem n D) (s : SState n D)
    (h : s.flagFirst = true) :
    BDF2.reassemble prob s = Implicit.reassemble prob s := by
  unfold BDF2.reassemble Implicit.reassemble
  rw [h]
  simp

/-- Facts about the sample problem `probA`: positive step size, and the
loop guard `dt < T + 1e-14` holds at the first iteration. -/
theorem probA_dt_pos : (0 : ℚ) < (initState probA).dt := by
  norm_num [initState, probA]

/-- The first loop iteration of `AbstractSolver.solve` runs on `probA`. -/
theorem probA_first_guard :
    (initState probA).dt < (initState probA).T + eps := by
  norm_num [initState, probA, eps]

/-! ### C1 — loop iteration counts of Explicit vs Implicit solve -/

/-- When the end time is the `k`-th multiple of the step size, both loop
bounds lead to the ceiling `k` (requires `dt > 1e-14`, otherwise the
epsilon margin itself admits extra iterations). -/
theorem ceil_step_count (k : ℕ) (dt : ℚ) (h1 : eps < dt) :
    ⌈((k : ℚ) * dt - dt + eps) / dt⌉ = (k : ℤ) := by
  have heps : (0 : ℚ) < eps := by norm_num [eps]
  have hdt : (0 : ℚ) < dt := heps.trans h1
  have key : ((k : ℚ) * dt - dt + eps) / dt
      = eps / dt + (((k : ℤ) - 1 : ℤ) : ℚ) := by
    push_cast
    field_simp
    ring
  rw [key, Int.ceil_add_int]
  have h2 : ⌈eps / dt⌉ = 1 := by
    rw [Int.ceil_eq_iff]
    constructor
    · push_cast
      have h3 : (0 : ℚ) < eps / dt := div_pos heps hdt
      linarith
    · push_cast
      rw [div_le_one hdt]
      linarith
  rw [h2]
  ring

/-- **C1 (amended)**: For `T` an exact integer multiple `k` of `dt` (and
`dt` above the `1e-14` tolerance), the Explicit scheme's `solve()` loop
executes exactly `k = ⌊T/dt⌋` iterations of update/reassemble/step — but
this is the *same* number of loop iterations as the Implicit scheme's
`solve()` for the same `T` and `dt`, not one fewer; the Implicit scheme
merely performs one additional final `update` call outside its loop. -/
theorem explicit_implicit_loop_counts (k : ℕ) (lin : LinSolve n)
    (prob : Problem n D) (s : SState n D) (hdt : 0 < s.dt)
    (h1 : eps < s.dt) (hT : s.T = (k : ℚ) * s.dt) :
    explicitIters s.dt s.T = k ∧
    implicitIters s.dt s.T = k ∧
    Explicit.solve lin prob s hdt
      = runSteps (schemeBody lin (baseUpdate prob) (Explicit.reassemble prob))
          s.dt k 0 s ∧
    Implicit.solve lin prob s hdt
      = baseUpdate prob (s.dt + (k : ℚ) * s.dt)
          (runSteps (schemeBody lin (baseUpdate prob)
            (Implicit.reassemble prob)) s.dt k s.dt s) := by
  have hexp : nIter s.dt (s.T - s.dt + eps) 0 = k := by
    unfold nIter
    have e : (s.T - s.dt + eps - 0) / s.dt
        = ((k : ℚ) * s.dt - s.dt + eps) / s.dt := by
      rw [hT]
      ring_nf
    rw [e, ceil_step_count k s.dt h1]
    omega
  have himp : nIter s.dt (s.T + eps) s.dt = k := by
    unfold nIter
    have e : (s.T + eps - s.dt) / s.dt
        = ((k : ℚ) * s.dt - s.dt + eps) / s.dt := by
      rw [hT]
      ring_nf
    rw [e, ceil_step_count k s.dt h1]
    omega
  refine ⟨hexp, himp, ?_, ?_⟩
  · unfold Explicit.solve
    rw [loopA_run, hexp]
  · simp only [Implicit.solve, abstractSolve]
    rw [loopA_run, himp]

/-- **C1 counterexample**: with `dt = 1`, `T = 2` (so `⌊T/dt⌋ = 2`), the
Explicit loop runs 2 iterations and the Implicit loop also runs 2
iterations — refuting "one fewer than the Implicit scheme's loop". -/
theorem explicit_implicit_loop_counts_cex :
    explicitIters 1 2 = 2 ∧ implicitIters 1 2 = 2 ∧
    ¬ implicitIters 1 2 = explicitIters 1 2 + 1 := by
  have hc : ⌈(1 + eps : ℚ)⌉ = 2 := by
    rw [Int.ceil_eq_iff]
    constructor
    · norm_num [eps]
    · norm_num [eps]
  have he : explicitIters 1 2 = 2 := by
    unfold explicitIters nIter
    have e : ((2 : ℚ) - 1 + eps - 0) / 1 = 1 + eps := by ring
    rw [e, hc]
    rfl
  have hi : implicitIters 1 2 = 2 := by
    unfold implicitIters nIter
    have e : ((2 : ℚ) + eps - 1) / 1 = 1 + eps := by ring
    rw [e, hc]
    rfl
  refine ⟨he, hi, ?_⟩
  rw [he, hi]
  omega

/-- Witness for C1 (amended) on `probA` (`dt = 1`, `T = 1`, `k = 1`). -/
theorem explicit_implicit_loop_counts_witness :
    ((0 : ℚ) < (initState probA).dt ∧ eps < (initState probA).dt ∧
      (initState probA).T = ((1 : ℕ) : ℚ) * (initState probA).dt) ∧
    (explicitIters (initState probA).dt (initState probA).T = 1 ∧
      implicitIters (initState probA).dt (initState probA).T = 1 ∧
      Explicit.solve linId probA (initState probA) probA_dt_pos
        = runSteps (schemeBody linId (baseUpdate probA)
            (Explicit.reassemble probA)) (initState probA).dt 1 0
            (initState probA) ∧
      Implicit.solve linId probA (initState probA) probA_dt_pos
        = baseUpdate probA
            ((initState probA).dt + ((1 : ℕ) : ℚ) * (initState probA).dt)
            (runSteps (schemeBody linId (baseUpdate probA)
              (Implicit.reassemble probA)) (initState probA).dt 1
              (initState probA).dt (initState probA))) :=
  ⟨⟨probA_dt_pos, by norm_num [initState, probA, eps],
      by norm_num [initState, probA]⟩,
    explicit_implicit_loop_counts 1 linId probA (initState probA)
      probA_dt_pos (by norm_num [initState, probA, eps])
      (by norm_num [initState, probA])⟩

/-! ### C2 — length of the recorded history -/

/-- Every `AbstractSolver.update` call appends exactly one history entry
when storing and none otherwise, and never touches the flag. -/
theorem baseUpdate_results_length (prob : Problem n D) (t : ℚ)
    (s : SState n D) :
    (baseUpdate prob t s).results.length
        = s.results.length + (if s.storeResults = true then 1 else 0) ∧
    (baseUpdate prob t s).storeResults = s.storeResults := by
  rw [baseUpdate_eq]
  refine ⟨?_, rfl⟩
  by_cases h : s.storeResults = true <;> simp [h]

/-- Same counting fact for `BDF2.update`. -/
theorem bdf2_update_results_length (prob : Problem n D) (t : ℚ)
    (s : SState n D) :
    (BDF2.update prob t s).results.length
        = s.results.length + (if s.storeResults = true then 1 else 0) ∧
    (BDF2.update prob t s).storeResults = s.storeResults := by
  rw [bdf2_update_eq]
  refine ⟨?_, rfl⟩
  by_cases h : s.storeResults = true <;> simp [h]

/-- Same counting fact for `CrankNicolson.update`. -/
theorem cn_update_results_length (prob : Problem n D) (t : ℚ)
    (s : SState n D) :
    (CrankNicolson.update prob t s).results.length
        = s.results.length + (if s.storeResults = true then 1 else 0) ∧
    (CrankNicolson.update prob t s).storeResults = s.storeResults := by
  rw [cn_update_eq]
  refine ⟨?_, rfl⟩
  by_cases h : s.storeResults = true <;> simp [h]

/-- `Implicit.reassemble` does not touch the history. -/
theorem implicit_reassemble_keeps_results (prob : Problem n D) (s : SState n D) :
    (Implicit.reassemble prob s).results = s.results ∧
    (Implicit.reassemble prob s).storeResults = s.storeResults :=
  ⟨rfl, rfl⟩

/-- `Explicit.reassemble` does not touch the history. -/
theorem explicit_reassemble_keeps_results (prob : Problem n D) (s : SState n D) :
    (Explicit.reassemble prob s).results = s.results ∧
    (Explicit.reassemble prob s).storeResults = s.storeResults :=
  ⟨rfl, rfl⟩

/-- `CrankNicolson.reassemble` does not touch the history. -/
theorem cn_reassemble_keeps_results (prob : Problem n D)
    (s : SState n D) :
    (CrankNicolson.reassemble prob s).results = s.results ∧
    (CrankNicolson.reassemble prob s).storeResults = s.storeResults :=
  ⟨rfl, rfl⟩

/-- `BDF2.reassemble` does not touch the history. -/
theorem bdf2_reassemble_keeps_results (prob : Problem n D) (s : SState n D) :
    (BDF2.reassemble prob s).results = s.results ∧
    (BDF2.reassemble prob s).storeResults = s.storeResults := by
  unfold BDF2.reassemble
  by_cases h : s.flagFirst = true <;> simp [h]

/-- Counting history entries across `runSteps`: each body iteration appends
one entry when storing, none otherwise. -/
theorem runSteps_results (body : ℚ → SState n D → SState n D)
    (hb : ∀ t s, (body t s).results.length
        = s.results.length + (if s.storeResults = true then 1 else 0) ∧
      (body t s).storeResults = s.storeResults) (dt : ℚ) :
    ∀ (k : ℕ) (t : ℚ) (s : SState n D),
      (runSteps body dt k t s).results.length
        = s.results.length + (if s.storeResults = true then k else 0) ∧
      (runSteps body dt k t s).storeResults = s.storeResults := by
  intro k
  induction k with
  | zero =>
    intro t s
    refine ⟨?_, rfl⟩
    simp [runSteps]
  | succ k ih =>
    intro t s
    have hb1 := hb t s
    have ih1 := ih (t + dt) (body t s)
    have hstep : runSteps body dt (k + 1) t s
        = runSteps body dt k (t + dt) (body t s) := rfl
    constructor
    · rw [hstep, ih1.1, hb1.1, hb1.2]
      by_cases hs : s.storeResults = true <;> simp [hs]
      omega
    · rw [hstep, ih1.2, hb1.2]

/-- History length of the inherited `AbstractSolver.solve`: the loop
appends one entry per iteration and the final flush `update` appends one
more. -/
theorem abstractSolve_results_length (lin : LinSolve n)
    (upd : ℚ → SState n D → SState n D) (reasm : SState n D → SState n D)
    (hu : ∀ t s, (upd t s).results.length
        = s.results.length + (if s.storeResults = true then 1 else 0) ∧
      (upd t s).storeResults = s.storeResults)
    (hr : ∀ s, (reasm s).results = s.results ∧
      (reasm s).storeResults = s.storeResults)
    (s : SState n D) (hdt : 0 < s.dt) :
    (abstractSolve lin upd reasm s hdt).results.length
      = s.results.length +
        (if s.storeResults = true then implicitIters s.dt s.T + 1 else 0) := by
  have hbody : ∀ t x, (schemeBody lin upd reasm t x).results.length
      = x.results.length + (if x.storeResults = true then 1 else 0) ∧
      (schemeBody lin upd reasm t x).storeResults = x.storeResults := by
    intro t x
    have h1 := hu t x
    have h2 := hr (upd t x)
    constructor
    · show (stepS lin (reasm (upd t x))).results.length = _
      rw [show (stepS lin (reasm (upd t x))).results
          = (reasm (upd t x)).results from rfl, h2.1, h1.1]
    · show (stepS lin (reasm (upd t x))).storeResults = _
      rw [show (stepS lin (reasm (upd t x))).storeResults
          = (reasm (upd t x)).storeResults from rfl, h2.2, h1.2]
  simp only [abstractSolve]
  rw [loopA_run]
  have hrun := runSteps_results (schemeBody lin upd reasm) hbody s.dt
    (nIter s.dt (s.T + eps) s.dt) s.dt s
  have hfin := hu (s.dt + (nIter s.dt (s.T + eps) s.dt : ℚ) * s.dt)
    (runSteps (schemeBody lin upd reasm) s.dt
      (nIter s.dt (s.T + eps) s.dt) s.dt s)
  rw [hfin.1, hrun.1, hrun.2]
  unfold implicitIters
  by_cases hs : s.storeResults = true <;> simp [hs]
  omega

/-- History length of `Explicit.solve`: one entry per loop iteration, no
final flush. -/
theorem explicitSolve_results_length (lin : LinSolve n) (prob : Problem n D)
    (s : SState n D) (hdt : 0 < s.dt) :
    (Explicit.solve lin prob s hdt).results.length
      = s.results.length +
        (if s.storeResults = true then explicitIters s.dt s.T else 0) := by
  have hbody : ∀ t x,
      (schemeBody lin (baseUpdate prob) (Explicit.reassemble prob) t x).results.length
        = x.results.length + (if x.storeResults = true then 1 else 0) ∧
      (schemeBody lin (baseUpdate prob) (Explicit.reassemble prob) t x).storeResults
        = x.storeResults := by
    intro t x
    have h1 := baseUpdate_results_length prob t x
    exact ⟨h1.1, h1.2⟩
  unfold Explicit.solve
  rw [loopA_run]
  have hrun := runSteps_results
    (schemeBody lin (baseUpdate prob) (Explicit.reassemble prob)) hbody s.dt
    (nIter s.dt (s.T - s.dt + eps) 0) 0 s
  rw [hrun.1]
  rfl

/-- `stateStoreA` has a positive step size. -/
theorem stateStoreA_dt_pos : (0 : ℚ) < stateStoreA.dt := by
  norm_num [stateStoreA, initState, probA]

/-- **C2 (amended)**: With `store_results` enabled, the Implicit, BDF2 and
Crank-Nicolson schemes record one history entry per `update` call — the
number of loop iterations *plus one*, because of the final flush `update`
after the loop — while the Explicit scheme records exactly one entry per
loop iteration; with `store_results` disabled the history stays empty. -/
theorem history_length_solve (lin : LinSolve n) (prob : Problem n D)
    (s : SState n D) (hdt : 0 < s.dt) (hres : s.results = []) :
    (s.storeResults = true →
      (Implicit.solve lin prob s hdt).results.length
          = implicitIters s.dt s.T + 1 ∧
      (BDF2.solve lin prob s hdt).results.length
          = implicitIters s.dt s.T + 1 ∧
      (CrankNicolson.solve lin prob s hdt).results.length
          = implicitIters s.dt s.T + 1 ∧
      (Explicit.solve lin prob s hdt).results.length
          = explicitIters s.dt s.T) ∧
    (s.storeResults = false →
      (Implicit.solve lin prob s hdt).results = [] ∧
      (BDF2.solve lin prob s hdt).results = [] ∧
      (CrankNicolson.solve lin prob s hdt).results = [] ∧
      (Explicit.solve lin prob s hdt).results = []) := by
  have hI := abstractSolve_results_length lin (baseUpdate prob)
    (Implicit.reassemble prob) (baseUpdate_results_length prob)
    (implicit_reassemble_keeps_results prob) s hdt
  have hB := abstractSolve_results_length lin (BDF2.update prob)
    (BDF2.reassemble prob) (bdf2_update_results_length prob)
    (bdf2_reassemble_keeps_results prob) s hdt
  have hC := abstractSolve_results_length lin (CrankNicolson.update prob)
    (CrankNicolson.reassemble prob) (cn_update_results_length prob)
    (cn_reassemble_keeps_results prob) s hdt
  have hE := explicitSolve_results_length lin prob s hdt
  rw [hres] at hI hB hC hE
  constructor
  · intro hs
    rw [hs] at hI hB hC hE
    simp at hI hB hC hE
    exact ⟨hI, hB, hC, hE⟩
  · intro hs
    rw [hs] at hI hB hC hE
    simp at hI hB hC hE
    exact ⟨hI, hB, hC, hE⟩

/-- **C2 counterexample**: on `probA` (`dt = 1`, `T = 1`) with
`store_results` enabled, the Implicit loop takes exactly 1 time step but
the recorded history has 2 entries (the final flush `update` also
appends). -/
theorem history_length_solve_cex :
    implicitIters stateStoreA.dt stateStoreA.T = 1 ∧
    (Implicit.solve linId probA stateStoreA stateStoreA_dt_pos).results.length
      = 2 := by
  have hceil : ⌈(eps : ℚ)⌉ = 1 := by
    rw [Int.ceil_eq_iff]
    constructor
    · norm_num [eps]
    · norm_num [eps]
  have hiters : implicitIters stateStoreA.dt stateStoreA.T = 1 := by
    show implicitIters 1 1 = 1
    unfold implicitIters nIter
    have e : ((1 : ℚ) + eps - 1) / 1 = eps := by ring
    rw [e, hceil]
    rfl
  refine ⟨hiters, ?_⟩
  have h := abstractSolve_results_length linId (baseUpdate probA)
    (Implicit.reassemble probA) (baseUpdate_results_length probA)
    (implicit_reassemble_keeps_results probA) stateStoreA stateStoreA_dt_pos
  have hs : stateStoreA.storeResults = true := rfl
  have hr : stateStoreA.results = ([] : List (Vec 1)) := rfl
  rw [hs, hr, hiters] at h
  simpa using h

/-- Witness for C2 (amended) on `stateStoreA` (`store_results = True`). -/
theorem history_length_solve_witness :
    ((0 : ℚ) < stateStoreA.dt ∧ stateStoreA.results = [] ∧
      stateStoreA.storeResults = true) ∧
    ((Implicit.solve linId probA stateStoreA stateStoreA_dt_pos).results.length
        = implicitIters stateStoreA.dt stateStoreA.T + 1 ∧
      (BDF2.solve linId probA stateStoreA stateStoreA_dt_pos).results.length
        = implicitIters stateStoreA.dt stateStoreA.T + 1 ∧
      (CrankNicolson.solve linId probA stateStoreA
          stateStoreA_dt_pos).results.length
        = implicitIters stateStoreA.dt stateStoreA.T + 1 ∧
      (Explicit.solve linId probA stateStoreA
          stateStoreA_dt_pos).results.length
        = explicitIters stateStoreA.dt stateStoreA.T) :=
  ⟨⟨stateStoreA_dt_pos, rfl, rfl⟩,
    (history_length_solve linId probA stateStoreA stateStoreA_dt_pos rfl).1 rfl⟩

/-! ### C3 — Implicit assembly formula -/

/-- **C3**: For every step of the Implicit scheme, `reassemble()` sets the
linear system from the time-term pair `(lhs_M, rhs_M)` and the space-term
pair `(lhs_A, rhs_A)` as `lhs = lhs_M + lhs_A` and
`rhs = lhs_M·p0 + rhs_A + rhs_M`, where `p0` is the previous-step
solution. -/
theorem implicit_reassemble_formula (prob : Problem n D) (s : SState n D) :
    (Implicit.reassemble prob s).lhs
        = (discretize prob.dom s.data prob.timeDisc0 prob.timeDiscRest).1
          + (discretize prob.dom s.data prob.spaceDisc0 prob.spaceDiscRest).1
      ∧
    (Implicit.reassemble prob s).rhs
        = (discretize prob.dom s.data prob.timeDisc0
              prob.timeDiscRest).1.mulVec s.p0
          + (discretize prob.dom s.data prob.spaceDisc0 prob.spaceDiscRest).2
          + (discretize prob.dom s.data prob.timeDisc0 prob.timeDiscRest).2 :=
  ⟨rfl, rfl⟩

/-! ### C4 — BDF2 bootstrap step equals Implicit step -/

/-- **C4**: For identical inputs, the solution the BDF2 scheme computes at
its first loop iteration (`t = dt`) equals the solution the Implicit scheme
computes at its first loop iteration: BDF2's first update keeps the
first-step flag set, so its first reassembly is the Implicit formula
exactly. -/
theorem bdf2_first_step_eq_implicit (lin : LinSolve n) (prob : Problem n D) :
    (schemeBody lin (BDF2.update prob) (BDF2.reassemble prob) prob.dt
        (BDF2.init prob)).p
      = (schemeBody lin (baseUpdate prob) (Implicit.reassemble prob) prob.dt
        (initState prob)).p := by
  have heps : (0 : ℚ) < eps6 := by norm_num [eps6]
  have hflag : ¬ ((BDF2.init prob).dt + eps6 < prob.dt) := by
    have hd : (BDF2.init prob).dt = prob.dt := rfl
    rw [hd]
    intro hc
    linarith
  have hfl : (BDF2.update prob prob.dt (BDF2.init prob)).flagFirst = true := by
    rw [bdf2_update_eq]
    exact if_neg hflag
  have hdata : (BDF2.update prob prob.dt (BDF2.init prob)).data
      = (baseUpdate prob prob.dt (initState prob)).data := by
    rw [bdf2_update_eq, baseUpdate_eq]
    rfl
  have hp0 : (BDF2.update prob prob.dt (BDF2.init prob)).p0
      = (baseUpdate prob prob.dt (initState prob)).p0 := by
    rw [bdf2_update_eq, baseUpdate_eq]
    rfl
  unfold schemeBody stepS
  rw [BDF2.reassemble_first prob _ hfl]
  simp only [Implicit.reassemble]
  rw [hdata, hp0]

/-! ### C5 — BDF2 formula after the first step -/

/-- With the first-step flag cleared, `BDF2.reassemble` applies the
second-order formula. -/
theorem BDF2.reassemble_later (prob : Problem n D) (s : SState n D)
    (hf : s.flagFirst = false) :
    BDF2.reassemble prob s =
      { s with
          lhs := (discretize prob.dom s.data prob.timeDisc0
              prob.timeDiscRest).1
            + (2 / 3 : ℚ) • (discretize prob.dom s.data prob.spaceDisc0
              prob.spaceDiscRest).1
          rhs := ((4 / 3 : ℚ) • (discretize prob.dom s.data prob.timeDisc0
              prob.timeDiscRest).1).mulVec s.p0
            - ((1 / 3 : ℚ) • (discretize prob.dom s.data prob.timeDisc0
              prob.timeDiscRest).1).mulVec s.p_1
            + (2 / 3 : ℚ) • (discretize prob.dom s.data prob.spaceDisc0
              prob.spaceDiscRest).2
            + (discretize prob.dom s.data prob.timeDisc0
              prob.timeDiscRest).2 } := by
  unfold BDF2.reassemble
  rw [hf]
  simp

/-- **C5**: Whenever `t` exceeds one step size plus the `1e-6` tolerance
(the first-step flag being recomputed from `t` at every `update(t)` call),
the update clears the flag and sets `p_1` to the previous `p0` immediately
before `p0` is advanced to the accepted solution, and the following
`reassemble()` sets `lhs = lhs_M + (2/3)·lhs_A` and
`rhs = (4/3)·lhs_M·p0 − (1/3)·lhs_M·p_1 + (2/3)·rhs_A + rhs_M` (with `p0`,
`p_1` the post-update history). -/
theorem bdf2_later_step_formula (prob : Problem n D) (t : ℚ)
    (s : SState n D) (h : s.dt + eps6 < t) :
    (BDF2.update prob t s).flagFirst = false ∧
    (BDF2.update prob t s).p_1 = s.p0 ∧
    (BDF2.update prob t s).p0 = s.p ∧
    (BDF2.reassemble prob (BDF2.update prob t s)).lhs
      = (discretize prob.dom (prob.update t s.data) prob.timeDisc0
          prob.timeDiscRest).1
        + (2 / 3 : ℚ) • (discretize prob.dom (prob.update t s.data)
          prob.spaceDisc0 prob.spaceDiscRest).1 ∧
    (BDF2.reassemble prob (BDF2.update prob t s)).rhs
      = ((4 / 3 : ℚ) • (discretize prob.dom (prob.update t s.data)
          prob.timeDisc0 prob.timeDiscRest).1).mulVec s.p
        - ((1 / 3 : ℚ) • (discretize prob.dom (prob.update t s.data)
          prob.timeDisc0 prob.timeDiscRest).1).mulVec s.p0
        + (2 / 3 : ℚ) • (discretize prob.dom (prob.update t s.data)
          prob.spaceDisc0 prob.spaceDiscRest).2
        + (discretize prob.dom (prob.update t s.data) prob.timeDisc0
          prob.timeDiscRest).2 := by
  have hfl : (BDF2.update prob t s).flagFirst = false := by
    rw [bdf2_update_eq]
    exact if_pos h
  have hp1 : (BDF2.update prob t s).p_1 = s.p0 := by
    rw [bdf2_update_eq]
  have hp0 : (BDF2.update prob t s).p0 = s.p := by
    rw [bdf2_update_eq]
  have hdat : (BDF2.update prob t s).data = prob.update t s.data := by
    rw [bdf2_update_eq]
  refine ⟨hfl, hp1, hp0, ?_, ?_⟩
  · rw [BDF2.reassemble_later prob _ hfl, hdat]
  · rw [BDF2.reassemble_later prob _ hfl, hdat, hp0, hp1]

/-- Witness for C5 on `probB` at `t = 2` (`dt = 1`, so `dt + 1e-6 < t`). -/
theorem bdf2_later_step_formula_witness :
    ((initState probB).dt + eps6 < 2) ∧
    ((BDF2.update probB 2 (initState probB)).flagFirst = false ∧
      (BDF2.update probB 2 (initState probB)).p_1 = (initState probB).p0 ∧
      (BDF2.update probB 2 (initState probB)).p0 = (initState probB).p ∧
      (BDF2.reassemble probB (BDF2.update probB 2 (initState probB))).lhs
        = (discretize probB.dom (probB.update 2 (initState probB).data)
            probB.timeDisc0 probB.timeDiscRest).1
          + (2 / 3 : ℚ) • (discretize probB.dom
            (probB.update 2 (initState probB).data) probB.spaceDisc0
            probB.spaceDiscRest).1 ∧
      (BDF2.reassemble probB (BDF2.update probB 2 (initState probB))).rhs
        = ((4 / 3 : ℚ) • (discretize probB.dom
            (probB.update 2 (initState probB).data) probB.timeDisc0
            probB.timeDiscRest).1).mulVec (initState probB).p
          - ((1 / 3 : ℚ) • (discretize probB.dom
            (probB.update 2 (initState probB).data) probB.timeDisc0
            probB.timeDiscRest).1).mulVec (initState probB).p0
          + (2 / 3 : ℚ) • (discretize probB.dom
            (probB.update 2 (initState probB).data) probB.spaceDisc0
            probB.spaceDiscRest).2
          + (discretize probB.dom (probB.update 2 (initState probB).data)
            probB.timeDisc0 probB.timeDiscRest).2) :=
  ⟨by norm_num [initState, probB, eps6],
    bdf2_later_step_formula probB 2 (initState probB)
      (by norm_num [initState, probB, eps6])⟩

/-! ### C6 — Crank-Nicolson assembly formula and cache rotation -/

/-- **C6**: Every Crank-Nicolson `reassemble()` forms
`lhs = lhs_time + 0.5·lhs_flux` and
`rhs = (lhs_time − 0.5·lhs_flux_0)·p0 + 0.5·(rhs_flux + rhs_time)
 + 0.5·(rhs_flux_0 + rhs_time_0)`, where the `*_0` pairs are the cached
previous-iteration contributions, and it stores the just-computed pairs in
the current-pair slots; the following `update(t)` then rotates those
just-computed pairs into the `*_0` caches for the next iteration. -/
theorem crank_nicolson_reassemble_formula (prob : Problem n D) (t : ℚ)
    (s : SState n D) :
    ((CrankNicolson.reassemble prob s).lhs
        = (discretize prob.dom s.data prob.timeDisc0 prob.timeDiscRest).1
          + (1 / 2 : ℚ) •
            (discretize prob.dom s.data prob.spaceDisc0 prob.spaceDiscRest).1)
      ∧
    ((CrankNicolson.reassemble prob s).rhs
        = ((discretize prob.dom s.data prob.timeDisc0 prob.timeDiscRest).1
            - (1 / 2 : ℚ) • s.lhs_flux_0).mulVec s.p0
          + (1 / 2 : ℚ) •
            ((discretize prob.dom s.data prob.spaceDisc0 prob.spaceDiscRest).2
             + (discretize prob.dom s.data prob.timeDisc0 prob.timeDiscRest).2)
          + (1 / 2 : ℚ) • (s.rhs_flux_0 + s.rhs_time_0))
      ∧
    ((CrankNicolson.reassemble prob s).lhs_flux
        = (discretize prob.dom s.data prob.spaceDisc0 prob.spaceDiscRest).1)
      ∧
    ((CrankNicolson.reassemble prob s).rhs_flux
        = (discretize prob.dom s.data prob.spaceDisc0 prob.spaceDiscRest).2)
      ∧
    ((CrankNicolson.reassemble prob s).lhs_time
        = (discretize prob.dom s.data prob.timeDisc0 prob.timeDiscRest).1)
      ∧
    ((CrankNicolson.reassemble prob s).rhs_time
        = (discretize prob.dom s.data prob.timeDisc0 prob.timeDiscRest).2)
      ∧
    ((CrankNicolson.update prob t (CrankNicolson.reassemble prob s)).lhs_flux_0
        = (discretize prob.dom s.data prob.spaceDisc0 prob.spaceDiscRest).1)
      ∧
    ((CrankNicolson.update prob t (CrankNicolson.reassemble prob s)).rhs_flux_0
        = (discretize prob.dom s.data prob.spaceDisc0 prob.spaceDiscRest).2)
      ∧
    ((CrankNicolson.update prob t (CrankNicolson.reassemble prob s)).lhs_time_0
        = (discretize prob.dom s.data prob.timeDisc0 prob.timeDiscRest).1)
      ∧
    ((CrankNicolson.update prob t (CrankNicolson.reassemble prob s)).rhs_time_0
        = (discretize prob.dom s.data prob.timeDisc0 prob.timeDiscRest).2) := by
  refine ⟨rfl, rfl, rfl, rfl, rfl, rfl, ?_, ?_, ?_, ?_⟩ <;>
    (rw [cn_update_eq]; rfl)

/-! ### C7 — zero spatial operator keeps the state at the initial condition -/

/-- On a GridBucket domain the Crank-Nicolson constructor succeeds and
caches the bucket-branch pre-assembly (which never reads the data store). -/
theorem CrankNicolson.init_bucket (prob : Problem n D)
    (hdom : prob.dom = Domain.bucket) :
    CrankNicolson.init prob = Except.ok
      { initState prob with
          lhs_flux := (sumPairs prob.spaceDisc0.mrBucket
            (prob.spaceDiscRest.map (fun x => x.mrBucket))).1
          rhs_flux := (sumPairs prob.spaceDisc0.mrBucket
            (prob.spaceDiscRest.map (fun x => x.mrBucket))).2
          lhs_time := (sumPairs prob.timeDisc0.mrBucket
            (prob.timeDiscRest.map (fun x => x.mrBucket))).1
          rhs_time := (sumPairs prob.timeDisc0.mrBucket
            (prob.timeDiscRest.map (fun x => x.mrBucket))).2
          lhs_flux_0 := (sumPairs prob.spaceDisc0.mrBucket
            (prob.spaceDiscRest.map (fun x => x.mrBucket))).1
          rhs_flux_0 := (sumPairs prob.spaceDisc0.mrBucket
            (prob.spaceDiscRest.map (fun x => x.mrBucket))).2
          lhs_time_0 := (sumPairs prob.timeDisc0.mrBucket
            (prob.timeDiscRest.map (fun x => x.mrBucket))).1
          rhs_time_0 := (sumPairs prob.timeDisc0.mrBucket
            (prob.timeDiscRest.map (fun x => x.mrBucket))).2 } := by
  unfold CrankNicolson.init discretizePre
  rw [hdom]
  rfl

/-- **C7**: For every problem whose space terms assemble to the zero matrix
and zero vector and whose time term has zero right-hand side, with an
injective (invertible) time/mass matrix and a correct direct solver, the
Implicit, Explicit and Crank-Nicolson schemes keep the state at the initial
condition: the final `p` and `p0` and every recorded history entry equal
the initial condition (for any `store_results` setting `b`). -/
theorem zero_operator_constant_state (lin : LinSolve n) (prob : Problem n D)
    (b : Bool) (hdt : 0 < prob.dt)
    (hA : ∀ d : D, discretize prob.dom d prob.spaceDisc0 prob.spaceDiscRest
        = (0, 0))
    (hM : ∀ d : D,
        (discretize prob.dom d prob.timeDisc0 prob.timeDiscRest).2 = 0)
    (hinj : ∀ d : D, Function.Injective
        ((discretize prob.dom d prob.timeDisc0 prob.timeDiscRest).1.mulVec))
    (hlin : ∀ (d : D) (v : Vec n),
        (discretize prob.dom d prob.timeDisc0 prob.timeDiscRest).1.mulVec
          (lin (discretize prob.dom d prob.timeDisc0 prob.timeDiscRest).1 v)
        = v) :
    ((Implicit.solve lin prob { initState prob with storeResults := b }
        hdt).p = prob.initialCondition ∧
      (Implicit.solve lin prob { initState prob with storeResults := b }
        hdt).p0 = prob.initialCondition ∧
      ∀ q ∈ (Implicit.solve lin prob
        { initState prob with storeResults := b } hdt).results,
        q = prob.initialCondition) ∧
    ((Explicit.solve lin prob { initState prob with storeResults := b }
        hdt).p = prob.initialCondition ∧
      (Explicit.solve lin prob { initState prob with storeResults := b }
        hdt).p0 = prob.initialCondition ∧
      ∀ q ∈ (Explicit.solve lin prob
        { initState prob with storeResults := b } hdt).results,
        q = prob.initialCondition) ∧
    (∀ s0 : SState n D, CrankNicolson.init prob = Except.ok s0 →
      ∀ h0 : 0 < ({ s0 with storeResults := b } : SState n D).dt,
      (CrankNicolson.solve lin prob { s0 with storeResults := b } h0).p
          = prob.initialCondition ∧
        (CrankNicolson.solve lin prob { s0 with storeResults := b } h0).p0
          = prob.initialCondition ∧
        ∀ q ∈ (CrankNicolson.solve lin prob { s0 with storeResults := b }
          h0).results, q = prob.initialCondition) := by
  have hsolve : ∀ d : D,
      lin (discretize prob.dom d prob.timeDisc0 prob.timeDiscRest).1
        ((discretize prob.dom d prob.timeDisc0 prob.timeDiscRest).1.mulVec
          prob.initialCondition) = prob.initialCondition := fun d =>
    hinj d (hlin d _)
  -- the base update preserves the history invariant
  have hPupd : ∀ (u : ℚ) (y : SState n D),
      (y.p = prob.initialCondition ∧ y.p0 = prob.initialCondition ∧
        ∀ q ∈ y.results, q = prob.initialCondition) →
      ((baseUpdate prob u y).p = prob.initialCondition ∧
        (baseUpdate prob u y).p0 = prob.initialCondition ∧
        ∀ q ∈ (baseUpdate prob u y).results, q = prob.initialCondition) := by
    intro u y hy
    refine ⟨?_, ?_, ?_⟩
    · rw [baseUpdate_eq]
      exact hy.1
    · rw [baseUpdate_eq]
      exact hy.1
    · rw [baseUpdate_eq]
      intro q hq
      rcases List.mem_append.mp hq with h | h
      · exact hy.2.2 q h
      · by_cases hs : y.storeResults = true
        · rw [if_pos hs] at h
          rw [List.mem_singleton.mp h]
          exact hy.1
        · rw [if_neg hs] at h
          exact absurd h (List.not_mem_nil q)
  -- the Implicit loop body preserves the invariant
  have hbodyI : ∀ (u : ℚ) (y : SState n D),
      (y.p = prob.initialCondition ∧ y.p0 = prob.initialCondition ∧
        ∀ q ∈ y.results, q = prob.initialCondition) →
      ((schemeBody lin (baseUpdate prob) (Implicit.reassemble prob) u y).p
          = prob.initialCondition ∧
        (schemeBody lin (baseUpdate prob) (Implicit.reassemble prob) u y).p0
          = prob.initialCondition ∧
        ∀ q ∈ (schemeBody lin (baseUpdate prob) (Implicit.reassemble prob)
          u y).results, q = prob.initialCondition) := by
    intro u y hy
    have hy1 := hPupd u y hy
    refine ⟨?_, hy1.2.1, hy1.2.2⟩
    show lin (Implicit.reassemble prob (baseUpdate prob u y)).lhs
      (Implicit.reassemble prob (baseUpdate prob u y)).rhs
      = prob.initialCondition
    have hl : (Implicit.reassemble prob (baseUpdate prob u y)).lhs
        = (discretize prob.dom (baseUpdate prob u y).data prob.timeDisc0
          prob.timeDiscRest).1 := by
      show (discretize prob.dom (baseUpdate prob u y).data prob.timeDisc0
          prob.timeDiscRest).1
        + (discretize prob.dom (baseUpdate prob u y).data prob.spaceDisc0
          prob.spaceDiscRest).1 = _
      rw [hA]
      simp
    have hr : (Implicit.reassemble prob (baseUpdate prob u y)).rhs
        = (discretize prob.dom (baseUpdate prob u y).data prob.timeDisc0
          prob.timeDiscRest).1.mulVec prob.initialCondition := by
      show (discretize prob.dom (baseUpdate prob u y).data prob.timeDisc0
          prob.timeDiscRest).1.mulVec (baseUpdate prob u y).p0
        + (discretize prob.dom (baseUpdate prob u y).data prob.spaceDisc0
          prob.spaceDiscRest).2
        + (discretize prob.dom (baseUpdate prob u y).data prob.timeDisc0
          prob.timeDiscRest).2 = _
      rw [hA, hM, hy1.2.1]
      simp
    rw [hl, hr]
    exact hsolve _
  -- the Explicit loop body preserves the invariant
  have hbodyE : ∀ (u : ℚ) (y : SState n D),
      (y.p = prob.initialCondition ∧ y.p0 = prob.initialCondition ∧
        ∀ q ∈ y.results, q = prob.initialCondition) →
      ((schemeBody lin (baseUpdate prob) (Explicit.reassemble prob) u y).p
          = prob.initialCondition ∧
        (schemeBody lin (baseUpdate prob) (Explicit.reassemble prob) u y).p0
          = prob.initialCondition ∧
        ∀ q ∈ (schemeBody lin (baseUpdate prob) (Explicit.reassemble prob)
          u y).results, q = prob.initialCondition) := by
    intro u y hy
    have hy1 := hPupd u y hy
    refine ⟨?_, hy1.2.1, hy1.2.2⟩
    show lin (Explicit.reassemble prob (baseUpdate prob u y)).lhs
      (Explicit.reassemble prob (baseUpdate prob u y)).rhs
      = prob.initialCondition
    have hr : (Explicit.reassemble prob (baseUpdate prob u y)).rhs
        = (discretize prob.dom (baseUpdate prob u y).data prob.timeDisc0
          prob.timeDiscRest).1.mulVec prob.initialCondition := by
      show ((discretize prob.dom (baseUpdate prob u y).data prob.timeDisc0
            prob.timeDiscRest).1
          - (discretize prob.dom (baseUpdate prob u y).data prob.spaceDisc0
            prob.spaceDiscRest).1).mulVec (baseUpdate prob u y).p0
        + (discretize prob.dom (baseUpdate prob u y).data prob.spaceDisc0
          prob.spaceDiscRest).2
        + (discretize prob.dom (baseUpdate prob u y).data prob.timeDisc0
          prob.timeDiscRest).2 = _
      rw [hA, hM, hy1.2.1]
      simp
    rw [show (Explicit.reassemble prob (baseUpdate prob u y)).lhs
      = (discretize prob.dom (baseUpdate prob u y).data prob.timeDisc0
        prob.timeDiscRest).1 from rfl, hr]
    exact hsolve _
  -- the Crank-Nicolson update preserves the extended invariant
  have hQupd : ∀ (u : ℚ) (y : SState n D),
      (y.p = prob.initialCondition ∧ y.p0 = prob.initialCondition ∧
        (∀ q ∈ y.results, q = prob.initialCondition) ∧
        y.lhs_flux = 0 ∧ y.rhs_flux = 0 ∧ y.rhs_time = 0 ∧
        y.lhs_flux_0 = 0 ∧ y.rhs_flux_0 = 0 ∧ y.rhs_time_0 = 0) →
      ((CrankNicolson.update prob u y).p = prob.initialCondition ∧
        (CrankNicolson.update prob u y).p0 = prob.initialCondition ∧
        (∀ q ∈ (CrankNicolson.update prob u y).results,
          q = prob.initialCondition) ∧
        (CrankNicolson.update prob u y).lhs_flux = 0 ∧
        (CrankNicolson.update prob u y).rhs_flux = 0 ∧
        (CrankNicolson.update prob u y).rhs_time = 0 ∧
        (CrankNicolson.update prob u y).lhs_flux_0 = 0 ∧
        (CrankNicolson.update prob u y).rhs_flux_0 = 0 ∧
        (CrankNicolson.update prob u y).rhs_time_0 = 0) := by
    intro u y hy
    obtain ⟨hp, hp0, hres, hlf, hrf, hrt, hlf0, hrf0, hrt0⟩ := hy
    refine ⟨?_, ?_, ?_, ?_, ?_, ?_, ?_, ?_, ?_⟩ <;> rw [cn_update_eq]
    · exact hp
    · exact hp
    · intro q hq
      rcases List.mem_append.mp hq with h | h
      · exact hres q h
      · by_cases hs : y.storeResults = true
        · rw [if_pos hs] at h
          rw [List.mem_singleton.mp h]
          exact hp
        · rw [if_neg hs] at h
          exact absurd h (List.not_mem_nil q)
    · exact hlf
    · exact hrf
    · exact hrt
    · exact hlf
    · exact hrf
    · exact hrt
  -- the Crank-Nicolson loop body preserves the extended invariant
  have hbodyC : ∀ (u : ℚ) (y : SState n D),
      (y.p = prob.initialCondition ∧ y.p0 = prob.initialCondition ∧
        (∀ q ∈ y.results, q = prob.initialCondition) ∧
        y.lhs_flux = 0 ∧ y.rhs_flux = 0 ∧ y.rhs_time = 0 ∧
        y.lhs_flux_0 = 0 ∧ y.rhs_flux_0 = 0 ∧ y.rhs_time_0 = 0) →
      ((schemeBody lin (CrankNicolson.update prob)
          (CrankNicolson.reassemble prob) u y).p = prob.initialCondition ∧
        (schemeBody lin (CrankNicolson.update prob)
          (CrankNicolson.reassemble prob) u y).p0 = prob.initialCondition ∧
        (∀ q ∈ (schemeBody lin (CrankNicolson.update prob)
          (CrankNicolson.reassemble prob) u y).results,
          q = prob.initialCondition) ∧
        (schemeBody lin (CrankNicolson.update prob)
          (CrankNicolson.reassemble prob) u y).lhs_flux = 0 ∧
        (schemeBody lin (CrankNicolson.update prob)
          (CrankNicolson.reassemble prob) u y).rhs_flux = 0 ∧
        (schemeBody lin (CrankNicolson.update prob)
          (CrankNicolson.reassemble prob) u y).rhs_time = 0 ∧
        (schemeBody lin (CrankNicolson.update prob)
          (CrankNicolson.reassemble prob) u y).lhs_flux_0 = 0 ∧
        (schemeBody lin (CrankNicolson.update prob)
          (CrankNicolson.reassemble prob) u y).rhs_flux_0 = 0 ∧
        (schemeBody lin (CrankNicolson.update prob)
          (CrankNicolson.reassemble prob) u y).rhs_time_0 = 0) := by
    intro u y hy
    have hz := hQupd u y hy
    obtain ⟨hu1, hu2, hu3, hu4, hu5, hu6, hu7, hu8, hu9⟩ := hz
    refine ⟨?_, hu2, hu3, ?_, ?_, ?_, hu7, hu8, hu9⟩
    · show lin
        (CrankNicolson.reassemble prob (CrankNicolson.update prob u y)).lhs
        (CrankNicolson.reassemble prob (CrankNicolson.update prob u y)).rhs
        = prob.initialCondition
      have hl : (CrankNicolson.reassemble prob
          (CrankNicolson.update prob u y)).lhs
          = (discretize prob.dom (CrankNicolson.update prob u y).data
            prob.timeDisc0 prob.timeDiscRest).1 := by
        show (discretize prob.dom (CrankNicolson.update prob u y).data
            prob.timeDisc0 prob.timeDiscRest).1
          + (1 / 2 : ℚ) • (discretize prob.dom
            (CrankNicolson.update prob u y).data prob.spaceDisc0
            prob.spaceDiscRest).1 = _
        rw [hA]
        simp
      have hr : (CrankNicolson.reassemble prob
          (CrankNicolson.update prob u y)).rhs
          = (discretize prob.dom (CrankNicolson.update prob u y).data
            prob.timeDisc0 prob.timeDiscRest).1.mulVec
            prob.initialCondition := by
        show ((discretize prob.dom (CrankNicolson.update prob u y).data
              prob.timeDisc0 prob.timeDiscRest).1
            - (1 / 2 : ℚ) • (CrankNicolson.update prob u y).lhs_flux_0).mulVec
              (CrankNicolson.update prob u y).p0
          + (1 / 2 : ℚ) • ((discretize prob.dom
              (CrankNicolson.update prob u y).data prob.spaceDisc0
              prob.spaceDiscRest).2
            + (discretize prob.dom (CrankNicolson.update prob u y).data
              prob.timeDisc0 prob.timeDiscRest).2)
          + (1 / 2 : ℚ) • ((CrankNicolson.update prob u y).rhs_flux_0
            + (CrankNicolson.update prob u y).rhs_time_0) = _
        rw [hA, hM, hu2, hu7, hu8, hu9]
        simp
      rw [hl, hr]
      exact hsolve _
    · show (discretize prob.dom (CrankNicolson.update prob u y).data
          prob.spaceDisc0 prob.spaceDiscRest).1 = 0
      rw [hA]
    · show (discretize prob.dom (CrankNicolson.update prob u y).data
          prob.spaceDisc0 prob.spaceDiscRest).2 = 0
      rw [hA]
    · exact hM _
  refine ⟨?_, ?_, ?_⟩
  · -- Implicit scheme
    have hstart : ({ initState prob with storeResults := b } : SState n D).p
          = prob.initialCondition ∧
        ({ initState prob with storeResults := b } : SState n D).p0
          = prob.initialCondition ∧
        ∀ q ∈ ({ initState prob with storeResults := b } : SState n D).results,
          q = prob.initialCondition :=
      ⟨rfl, rfl, fun q hq => absurd hq (List.not_mem_nil q)⟩
    simp only [Implicit.solve, abstractSolve]
    rw [loopA_run]
    have hloop := runSteps_inv
      (schemeBody lin (baseUpdate prob) (Implicit.reassemble prob))
      ({ initState prob with storeResults := b } : SState n D).dt
      (fun y : SState n D => y.p = prob.initialCondition ∧
        y.p0 = prob.initialCondition ∧
        ∀ q ∈ y.results, q = prob.initialCondition)
      hbodyI
      (nIter ({ initState prob with storeResults := b } : SState n D).dt
        (({ initState prob with storeResults := b } : SState n D).T + eps)
        ({ initState prob with storeResults := b } : SState n D).dt)
      ({ initState prob with storeResults := b } : SState n D).dt
      ({ initState prob with storeResults := b } : SState n D) hstart
    exact ⟨(hPupd _ _ hloop).1, (hPupd _ _ hloop).2.1, (hPupd _ _ hloop).2.2⟩
  · -- Explicit scheme
    have hstart : ({ initState prob with storeResults := b } : SState n D).p
          = prob.initialCondition ∧
        ({ initState prob with storeResults := b } : SState n D).p0
          = prob.initialCondition ∧
        ∀ q ∈ ({ initState prob with storeResults := b } : SState n D).results,
          q = prob.initialCondition :=
      ⟨rfl, rfl, fun q hq => absurd hq (List.not_mem_nil q)⟩
    unfold Explicit.solve
    rw [loopA_run]
    have hloop := runSteps_inv
      (schemeBody lin (baseUpdate prob) (Explicit.reassemble prob))
      ({ initState prob with storeResults := b } : SState n D).dt
      (fun y : SState n D => y.p = prob.initialCondition ∧
        y.p0 = prob.initialCondition ∧
        ∀ q ∈ y.results, q = prob.initialCondition)
      hbodyE
      (nIter ({ initState prob with storeResults := b } : SState n D).dt
        (({ initState prob with storeResults := b } : SState n D).T
          - ({ initState prob with storeResults := b } : SState n D).dt + eps)
        0)
      0 ({ initState prob with storeResults := b } : SState n D) hstart
    exact ⟨hloop.1, hloop.2.1, hloop.2.2⟩
  · -- Crank-Nicolson scheme
    intro s0 hinit h0
    cases hdom : prob.dom with
    | single =>
      exfalso
      have herr : CrankNicolson.init prob
          = Except.error PyError.attributeError := by
        simp [CrankNicolson.init, discretizePre, hdom]
        rfl
      rw [herr] at hinit
      exact Except.noConfusion hinit
    | bucket =>
      rw [CrankNicolson.init_bucket prob hdom] at hinit
      injection hinit with hs0
      have hAb : discretize Domain.bucket prob.data prob.spaceDisc0
          prob.spaceDiscRest = (0, 0) := by
        rw [← hdom]
        exact hA prob.data
      have hMb : (discretize Domain.bucket prob.data prob.timeDisc0
          prob.timeDiscRest).2 = 0 := by
        rw [← hdom]
        exact hM prob.data
      have hlf : sumPairs prob.spaceDisc0.mrBucket
          (prob.spaceDiscRest.map (fun x => x.mrBucket)) = (0, 0) := hAb
      have hQstart :
          ({ s0 with storeResults := b } : SState n D).p
              = prob.initialCondition ∧
          ({ s0 with storeResults := b } : SState n D).p0
              = prob.initialCondition ∧
          (∀ q ∈ ({ s0 with storeResults := b } : SState n D).results,
            q = prob.initialCondition) ∧
          ({ s0 with storeResults := b } : SState n D).lhs_flux = 0 ∧
          ({ s0 with storeResults := b } : SState n D).rhs_flux = 0 ∧
          ({ s0 with storeResults := b } : SState n D).rhs_time = 0 ∧
          ({ s0 with storeResults := b } : SState n D).lhs_flux_0 = 0 ∧
          ({ s0 with storeResults := b } : SState n D).rhs_flux_0 = 0 ∧
          ({ s0 with storeResults := b } : SState n D).rhs_time_0 = 0 := by
        have hres0 : s0.results = [] := by
          rw [← hs0]
          rfl
        refine ⟨?_, ?_, ?_, ?_, ?_, ?_, ?_, ?_, ?_⟩
        · show s0.p = prob.initialCondition
          rw [← hs0]
          rfl
        · show s0.p0 = prob.initialCondition
          rw [← hs0]
          rfl
        · show ∀ q ∈ s0.results, q = prob.initialCondition
          rw [hres0]
          intro q hq
          exact absurd hq (List.not_mem_nil q)
        · show s0.lhs_flux = 0
          rw [← hs0]
          show (sumPairs prob.spaceDisc0.mrBucket
            (prob.spaceDiscRest.map (fun x => x.mrBucket))).1 = 0
          simp [hlf]
        · show s0.rhs_flux = 0
          rw [← hs0]
          show (sumPairs prob.spaceDisc0.mrBucket
            (prob.spaceDiscRest.map (fun x => x.mrBucket))).2 = 0
          simp [hlf]
        · show s0.rhs_time = 0
          rw [← hs0]
          exact hMb
        · show s0.lhs_flux_0 = 0
          rw [← hs0]
          show (sumPairs prob.spaceDisc0.mrBucket
            (prob.spaceDiscRest.map (fun x => x.mrBucket))).1 = 0
          simp [hlf]
        · show s0.rhs_flux_0 = 0
          rw [← hs0]
          show (sumPairs prob.spaceDisc0.mrBucket
            (prob.spaceDiscRest.map (fun x => x.mrBucket))).2 = 0
          simp [hlf]
        · show s0.rhs_time_0 = 0
          rw [← hs0]
          exact hMb
      simp only [CrankNicolson.solve, abstractSolve]
      rw [loopA_run]
      have hloop := runSteps_inv
        (schemeBody lin (CrankNicolson.update prob)
          (CrankNicolson.reassemble prob))
        ({ s0 with storeResults := b } : SState n D).dt
        (fun y : SState n D => y.p = prob.initialCondition ∧
          y.p0 = prob.initialCondition ∧
          (∀ q ∈ y.results, q = prob.initialCondition) ∧
          y.lhs_flux = 0 ∧ y.rhs_flux = 0 ∧ y.rhs_time = 0 ∧
          y.lhs_flux_0 = 0 ∧ y.rhs_flux_0 = 0 ∧ y.rhs_time_0 = 0)
        hbodyC
        (nIter ({ s0 with storeResults := b } : SState n D).dt
          (({ s0 with storeResults := b } : SState n D).T + eps)
          ({ s0 with storeResults := b } : SState n D).dt)
        ({ s0 with storeResults := b } : SState n D).dt
        ({ s0 with storeResults := b } : SState n D) hQstart
      exact ⟨(hQupd _ _ hloop).1, (hQupd _ _ hloop).2.1,
        (hQupd _ _ hloop).2.2.1⟩

/-- Witness for C7 on `probA` (space term `(0,0)`, identity mass matrix,
zero sources, exact solver `linId`): the Implicit scheme's run stays at the
initial condition `5`. -/
theorem zero_operator_constant_state_witness :
    ((0 : ℚ) < probA.dt ∧
      (∀ d : Unit, discretize probA.dom d probA.spaceDisc0 probA.spaceDiscRest
        = (0, 0)) ∧
      (∀ d : Unit,
        (discretize probA.dom d probA.timeDisc0 probA.timeDiscRest).2 = 0) ∧
      (∀ d : Unit, Function.Injective
        ((discretize probA.dom d probA.timeDisc0
          probA.timeDiscRest).1.mulVec)) ∧
      (∀ (d : Unit) (v : Vec 1),
        (discretize probA.dom d probA.timeDisc0
          probA.timeDiscRest).1.mulVec
          (linId (discretize probA.dom d probA.timeDisc0
            probA.timeDiscRest).1 v) = v)) ∧
    ((Implicit.solve linId probA
        { initState probA with storeResults := true } probA_dt_pos).p
      = probA.initialCondition ∧
      (Implicit.solve linId probA
        { initState probA with storeResults := true } probA_dt_pos).p0
      = probA.initialCondition ∧
      ∀ q ∈ (Implicit.solve linId probA
        { initState probA with storeResults := true }
        probA_dt_pos).results, q = probA.initialCondition) := by
  have hA : ∀ d : Unit, discretize probA.dom d probA.spaceDisc0
      probA.spaceDiscRest = (0, 0) := fun _ => rfl
  have hM : ∀ d : Unit,
      (discretize probA.dom d probA.timeDisc0 probA.timeDiscRest).2 = 0 :=
    fun _ => rfl
  have hinj : ∀ d : Unit, Function.Injective
      ((discretize probA.dom d probA.timeDisc0
        probA.timeDiscRest).1.mulVec) := by
    intro d a b h
    have h' : (1 : Mat 1).mulVec a = (1 : Mat 1).mulVec b := h
    simpa [Matrix.one_mulVec] using h'
  have hlin : ∀ (d : Unit) (v : Vec 1),
      (discretize probA.dom d probA.timeDisc0 probA.timeDiscRest).1.mulVec
        (linId (discretize probA.dom d probA.timeDisc0
          probA.timeDiscRest).1 v) = v := by
    intro d v
    show (1 : Mat 1).mulVec v = v
    exact Matrix.one_mulVec v
  exact ⟨⟨probA_dt_pos, hA, hM, hinj, hlin⟩,
    (zero_operator_constant_state linId probA true probA_dt_pos
      hA hM hinj hlin).1⟩

/-! ### C8 — solution-history invariant of the update calls -/

/-- Peeling the *last* iteration off `runSteps`. -/
theorem runSteps_succ_last {S : Type} (body : ℚ → S → S) (dt : ℚ) :
    ∀ (k : ℕ) (t : ℚ) (s : S),
      runSteps body dt (k + 1) t s
        = body (t + (k : ℚ) * dt) (runSteps body dt k t s) := by
  intro k
  induction k with
  | zero =>
    intro t s
    simp [runSteps]
  | succ k ih =>
    intro t s
    have hstep : runSteps body dt (k + 1 + 1) t s
        = runSteps body dt (k + 1) (t + dt) (body t s) := rfl
    rw [hstep, ih (t + dt) (body t s)]
    have harg : t + dt + (k : ℚ) * dt = t + ((k + 1 : ℕ) : ℚ) * dt := by
      push_cast
      ring
    rw [harg]
    rfl

/-- `BDF2.reassemble` never touches the solution history. -/
theorem BDF2.reassemble_keeps (prob : Problem n D) (s : SState n D) :
    (BDF2.reassemble prob s).p0 = s.p0 ∧
    (BDF2.reassemble prob s).p_1 = s.p_1 := by
  unfold BDF2.reassemble
  by_cases h : s.flagFirst = true <;> simp [h]

/-- **C8 (amended)**: at the *end* of every `update(t)` call — i.e. when
the subsequent `reassemble` reads the history — `p0` equals the solution
accepted at the end of the previous step (`p`), and for BDF2 `p_1` equals
the previous `p0`; consequently, after `k+1` loop iterations of any
scheme's solve loop, `p0` equals the solution accepted at iteration `k`,
and for BDF2 `p_1` equals the `p0` of iteration `k` (which for `k = 0` is
the initial condition, as is `p0` itself during the first step).  The
as-written claim puts this at the *start* of the `update` call, where `p0`
still holds the solution from two steps back — see the counterexample. -/
theorem update_history_invariant (lin : LinSolve n) (prob : Problem n D)
    (t : ℚ) (x : SState n D) (k : ℕ) (dt0 t0 : ℚ) (s0 : SState n D) :
    (baseUpdate prob t x).p0 = x.p ∧
    (BDF2.update prob t x).p0 = x.p ∧
    (BDF2.update prob t x).p_1 = x.p0 ∧
    (CrankNicolson.update prob t x).p0 = x.p ∧
    (runSteps (schemeBody lin (baseUpdate prob) (Implicit.reassemble prob))
        dt0 (k + 1) t0 s0).p0
      = (runSteps (schemeBody lin (baseUpdate prob)
          (Implicit.reassemble prob)) dt0 k t0 s0).p ∧
    (runSteps (schemeBody lin (BDF2.update prob) (BDF2.reassemble prob))
        dt0 (k + 1) t0 s0).p0
      = (runSteps (schemeBody lin (BDF2.update prob) (BDF2.reassemble prob))
          dt0 k t0 s0).p ∧
    (runSteps (schemeBody lin (BDF2.update prob) (BDF2.reassemble prob))
        dt0 (k + 1) t0 s0).p_1
      = (runSteps (schemeBody lin (BDF2.update prob) (BDF2.reassemble prob))
          dt0 k t0 s0).p0 ∧
    (runSteps (schemeBody lin (CrankNicolson.update prob)
        (CrankNicolson.reassemble prob)) dt0 (k + 1) t0 s0).p0
      = (runSteps (schemeBody lin (CrankNicolson.update prob)
          (CrankNicolson.reassemble prob)) dt0 k t0 s0).p ∧
    (runSteps (schemeBody lin (baseUpdate prob) (Explicit.reassemble prob))
        dt0 (k + 1) t0 s0).p0
      = (runSteps (schemeBody lin (baseUpdate prob)
          (Explicit.reassemble prob)) dt0 k t0 s0).p ∧
    (initState prob).p0 = prob.initialCondition ∧
    (initState prob).p = prob.initialCondition ∧
    (BDF2.init prob).p_1 = prob.initialCondition ∧
    (BDF2.init prob).p0 = prob.initialCondition := by
  have hIb : ∀ (u : ℚ) (y : SState n D),
      (schemeBody lin (baseUpdate prob) (Implicit.reassemble prob) u y).p0
        = y.p := by
    intro u y
    show (baseUpdate prob u y).p0 = y.p
    rw [baseUpdate_eq]
  have hEb : ∀ (u : ℚ) (y : SState n D),
      (schemeBody lin (baseUpdate prob) (Explicit.reassemble prob) u y).p0
        = y.p := by
    intro u y
    show (baseUpdate prob u y).p0 = y.p
    rw [baseUpdate_eq]
  have hCb : ∀ (u : ℚ) (y : SState n D),
      (schemeBody lin (CrankNicolson.update prob)
        (CrankNicolson.reassemble prob) u y).p0 = y.p := by
    intro u y
    show (CrankNicolson.update prob u y).p0 = y.p
    rw [cn_update_eq]
  have hBb0 : ∀ (u : ℚ) (y : SState n D),
      (schemeBody lin (BDF2.update prob) (BDF2.reassemble prob) u y).p0
        = y.p := by
    intro u y
    have h1 : (schemeBody lin (BDF2.update prob) (BDF2.reassemble prob) u y).p0
        = (BDF2.reassemble prob (BDF2.update prob u y)).p0 := rfl
    rw [h1, (BDF2.reassemble_keeps prob _).1, bdf2_update_eq]
  have hBb1 : ∀ (u : ℚ) (y : SState n D),
      (schemeBody lin (BDF2.update prob) (BDF2.reassemble prob) u y).p_1
        = y.p0 := by
    intro u y
    have h1 : (schemeBody lin (BDF2.update prob) (BDF2.reassemble prob) u y).p_1
        = (BDF2.reassemble prob (BDF2.update prob u y)).p_1 := rfl
    rw [h1, (BDF2.reassemble_keeps prob _).2, bdf2_update_eq]
  refine ⟨by rw [baseUpdate_eq], by rw [bdf2_update_eq], by rw [bdf2_update_eq],
    by rw [cn_update_eq], ?_, ?_, ?_, ?_, ?_, rfl, rfl, rfl, rfl⟩
  · rw [runSteps_succ_last _ dt0 k t0 s0, hIb]
  · rw [runSteps_succ_last _ dt0 k t0 s0, hBb0]
  · rw [runSteps_succ_last _ dt0 k t0 s0, hBb1]
  · rw [runSteps_succ_last _ dt0 k t0 s0, hCb]
  · rw [runSteps_succ_last _ dt0 k t0 s0, hEb]

/-- **C8 counterexample**: on `probB`, at the moment the *second*
`update(t)` call of the Implicit solve loop begins — i.e. in the state
produced by the first loop iteration — `p0` still holds the initial
condition `0`, while the solution accepted at the end of the previous step
is `1`; so "at the start of every update(t) call p0 equals the solution
accepted at the end of the previous step" fails. -/
theorem update_history_invariant_cex :
    (schemeBody linId (baseUpdate probB) (Implicit.reassemble probB) 1
        (initState probB)).p0 = vec1 0 ∧
    (schemeBody linId (baseUpdate probB) (Implicit.reassemble probB) 1
        (initState probB)).p = vec1 1 ∧
    ¬ ((schemeBody linId (baseUpdate probB) (Implicit.reassemble probB) 1
        (initState probB)).p0
      = (schemeBody linId (baseUpdate probB) (Implicit.reassemble probB) 1
        (initState probB)).p) := by
  have hp0 : (schemeBody linId (baseUpdate probB) (Implicit.reassemble probB) 1
      (initState probB)).p0 = vec1 0 := by
    show (baseUpdate probB 1 (initState probB)).p0 = vec1 0
    rw [baseUpdate_eq]
    rfl
  have hp : (schemeBody linId (baseUpdate probB) (Implicit.reassemble probB) 1
      (initState probB)).p = vec1 1 := by
    show (Implicit.reassemble probB (baseUpdate probB 1 (initState probB))).rhs
      = vec1 1
    rw [baseUpdate_eq]
    funext i
    simp [Implicit.reassemble, probB, initState, discMassSrc, discZero, disc1,
      discretize, sumPairs, vec1, Matrix.one_mulVec]
  refine ⟨hp0, hp, ?_⟩
  intro heq
  rw [hp0, hp] at heq
  have hcontra := congrFun heq 0
  simp [vec1] at hcontra

/-! ### C9 — the abstract base scheme's reassemble always raises -/

/-- **C9**: `AbstractSolver.reassemble` raises `NotImplementedError` for
every solver state, so running the inherited `solve` on a scheme that does
not override `reassemble` fails on the first loop iteration (whenever the
loop runs at all, i.e. `dt < T + 1e-14`) instead of producing a result. -/
theorem abstract_reassemble_raises (lin : LinSolve n)
    (upd : ℚ → SState n D → SState n D) (s : SState n D) (hdt : 0 < s.dt)
    (hrun : s.dt < s.T + eps) :
    abstractReassemble s = Except.error PyError.notImplementedError ∧
    abstractSolveRaw lin upd s hdt
      = Except.error PyError.notImplementedError := by
  refine ⟨rfl, ?_⟩
  unfold abstractSolveRaw
  rw [loopAE_error _ _ _ hdt _ _ PyError.notImplementedError hrun rfl]

/-- Witness for C9 on the concrete problem `probA` (`dt = 1`, `T = 1`): the
loop guard holds and the abstract solve raises. -/
theorem abstract_reassemble_raises_witness :
    (0 : ℚ) < (initState probA).dt ∧
    (initState probA).dt < (initState probA).T + eps ∧
    abstractSolveRaw linId (baseUpdate probA) (initState probA) probA_dt_pos
      = Except.error PyError.notImplementedError :=
  ⟨probA_dt_pos, probA_first_guard,
    (abstract_reassemble_raises linId (baseUpdate probA) (initState probA)
      probA_dt_pos probA_first_guard).2⟩

/-! ### C10 — Crank-Nicolson construction fails on a single-mesh domain -/

/-- **C10**: On a problem whose domain is a single mesh (not a GridBucket),
constructing the CrankNicolson scheme fails before any stepping: its
pre-assembly calls `_discretize`, whose single-domain branch reads the
still-unassigned `self.data` attribute, raising `AttributeError`. -/
theorem crank_nicolson_single_domain_init_fails (prob : Problem n D)
    (h : prob.dom = Domain.single) :
    CrankNicolson.init prob = Except.error PyError.attributeError := by
  simp [CrankNicolson.init, discretizePre, h]
  rfl

/-- Witness for C10 on the concrete single-domain problem `probS`. -/
theorem crank_nicolson_single_domain_init_fails_witness :
    probS.dom = Domain.single ∧
    CrankNicolson.init probS = Except.error PyError.attributeError :=
  ⟨rfl, crank_nicolson_single_domain_init_fails probS rfl⟩

end PorePy
